import Mathlib

/-!
Verification of the bulk-copy / binary-column core of node-sqlserver-v8.

The embedding covers:
* a small allocation heap, modelling `new char[len]` / `delete[]` and the
  byte copies performed by `memcpy`;
* `BinaryColumn` materialization, in both variants present in the source
  (per-call allocation in `BinaryColumn.cpp` with the no-op `delete_buffer`,
  and constructor-time cloning in `BinaryColumn.h` with the hint-freeing
  `deleteBuffer`);
* the bulk-copy plugin table (`plugin_bcp`), per-column cursors
  (`basestorage`) and the session state machine (`bcp`), whose
  implementations are not part of the excerpted source and are therefore
  modelled from the spec.
-/

namespace mssql

/-- A byte value. -/
abbrev Byte := Nat

/-- The contents of a memory region, as a list of bytes. -/
abbrev Bytes := List Byte

/-- An allocation heap: `next` is the next fresh block id, `live` maps the
ids of currently allocated blocks to their contents, and `freed` records
every `delete[]` performed, with multiplicity. -/
structure Heap where
  next : Nat
  live : List (Nat × Bytes)
  freed : List Nat
deriving Repr, DecidableEq

/-- The empty heap. -/
def Heap.empty : Heap := ⟨0, [], []⟩

/-- Allocation, `new char[...]`, initialised with `bs`: returns the new heap and the
fresh block id. -/
def Heap.alloc (h : Heap) (bs : Bytes) : Heap × Nat :=
  (⟨h.next + 1, (h.next, bs) :: h.live, h.freed⟩, h.next)

/-- Contents of block `id` (empty if the block is not live). -/
def Heap.read (h : Heap) (id : Nat) : Bytes :=
  lookupBlock h.live id
where
  /-- First association for `id` in a block list. -/
  lookupBlock : List (Nat × Bytes) → Nat → Bytes
    | [], _ => []
    | p :: rest, id => if p.1 = id then p.2 else lookupBlock rest id

/-- Whether block `id` is currently allocated. -/
def Heap.isLive (h : Heap) (id : Nat) : Bool :=
  h.live.any (fun p => p.1 = id)

/-- Overwrite the contents of block `id` (no effect on other blocks). -/
def Heap.write (h : Heap) (id : Nat) (bs : Bytes) : Heap :=
  ⟨h.next, h.live.map (fun p => if p.1 = id then (id, bs) else p), h.freed⟩

/-- Deallocation, `delete[]`, of block `id`: the block stops being live and the
deallocation is recorded. -/
def Heap.deleteArr (h : Heap) (id : Nat) : Heap :=
  ⟨h.next, h.live.filter (fun p => p.1 ≠ id), id :: h.freed⟩

/-- How many times block `id` has been deallocated over the heap's
history. -/
def Heap.freeCount (h : Heap) (id : Nat) : Nat :=
  h.freed.count id

/-- Well-formedness: every live block id is below the fresh counter. -/
def Heap.wf (h : Heap) : Prop :=
  ∀ p ∈ h.live, p.1 < h.next

instance (h : Heap) : Decidable h.wf := List.decidableBAll _ h.live

/-! ### BinaryColumn, `.cpp` variant (per-call allocation, no-op release) -/

/-- The release callbacks handed to `node::Buffer::New` by the two
`BinaryColumn` variants. -/
inductive ReleaseCb where
  /-- The `delete_buffer(char* ptr, void* hint)` callback from `BinaryColumn.cpp`:
  its entire body, including `delete[] ptr`, is commented out, so the
  callback deallocates nothing. -/
  | delete_buffer
  /-- The `deleteBuffer(char* ptr, void* hint)` callback from `BinaryColumn.h`:
  performs `delete[] hint`. -/
  | deleteBuffer (hint : Nat)
deriving Repr, DecidableEq

/-- Run a release callback against the heap. -/
def runRelease : ReleaseCb → Heap → Heap
  | .delete_buffer, h => h
  | .deleteBuffer hint, h => h.deleteArr hint

/-- The buffer handed to the buffer host: block id, length and the release
callback registered with the host. -/
structure OwnedBuffer where
  id : Nat
  len : Nat
  release : ReleaseCb
deriving Repr, DecidableEq

/-- The fields of `BinaryColumn` in `BinaryColumn.cpp`: column id, the
`charvec_ptr` storage block, `len` and `offset`. -/
structure BinaryColumn where
  colId : Int
  storage : Nat
  len : Nat
  offset : Nat
deriving Repr, DecidableEq

/-- Two-argument constructor (`BinaryColumn(id, s, l)`): offset 0. -/
def BinaryColumn.mk2 (id : Int) (storage : Nat) (l : Nat) : BinaryColumn :=
  ⟨id, storage, l, 0⟩

/-- Three-argument constructor (`BinaryColumn(id, s, offset, l)`). -/
def BinaryColumn.mk3 (id : Int) (storage : Nat) (offset l : Nat) : BinaryColumn :=
  ⟨id, storage, l, offset⟩

/-- The `BinaryColumn::ToValue` of `BinaryColumn.cpp`:
`ptr = storage->data() + offset; str = new char[len]; memcpy(str, ptr, len);`
then `node::Buffer::New(iso, str, len, delete_buffer, nullptr)`. -/
def BinaryColumn.toValue (c : BinaryColumn) (h : Heap) : Heap × OwnedBuffer :=
  let src := h.read c.storage
  let copied := (src.drop c.offset).take c.len
  let p := h.alloc copied
  (p.1, ⟨p.2, c.len, .delete_buffer⟩)

/-! ### BinaryColumn, `.h` variant (constructor-time clone, hint release) -/

/-- The fields of `BinaryColumn` in `BinaryColumn.h`: column id, `len` and
the `raw` clone allocated by the constructor. -/
structure BinaryColumnH where
  colId : Int
  len : Nat
  raw : Nat
deriving Repr, DecidableEq

/-- The `.h` constructor: `raw(clone(storage->charvec_ptr, l))`, where
`clone` does `dest = new char[len]; memcpy(dest, sp->data(), len)` — note
the copy starts at the beginning of the storage, there is no offset. -/
def BinaryColumnH.make (id : Int) (h : Heap) (storage : Nat) (l : Nat) :
    Heap × BinaryColumnH :=
  let dest := (h.read storage).take l
  let p := h.alloc dest
  (p.1, ⟨id, l, p.2⟩)

/-- The `BinaryColumn::ToValue` of `BinaryColumn.h`:
`node::Buffer::New(iso, raw, len, deleteBuffer, raw)`. -/
def BinaryColumnH.toValue (c : BinaryColumnH) : OwnedBuffer :=
  ⟨c.raw, c.len, .deleteBuffer c.raw⟩

/-! ### Full-lifetime observations

The buffer host guarantees the release callback is invoked exactly once;
a buffer's full lifetime is materialization followed by that single
release invocation. -/

/-- Full lifetime of a `.cpp`-variant buffer over a fresh heap holding one
storage block: allocate the storage, materialize with `ToValue`, let the
host invoke the release callback once. Returns the final heap and the
buffer. -/
def cppLifetime (storage : Bytes) (offset len : Nat) : Heap × OwnedBuffer :=
  let p := Heap.empty.alloc storage
  let c := BinaryColumn.mk3 0 p.2 offset len
  let q := c.toValue p.1
  (runRelease q.2.release q.1, q.2)

/-- Full lifetime of a `.h`-variant buffer over a fresh heap holding one
storage block: allocate the storage, construct the column (which clones),
call `ToValue`, let the host invoke the release callback once. -/
def hLifetime (storage : Bytes) (len : Nat) : Heap × OwnedBuffer :=
  let p := Heap.empty.alloc storage
  let q := BinaryColumnH.make 0 p.1 p.2 len
  let buf := q.2.toValue
  (runRelease buf.release q.1, buf)

/-- Bytes exposed to the host by the `.cpp` variant, read right after
materialization. -/
def cppExposedBytes (storage : Bytes) (offset len : Nat) : Bytes :=
  let p := Heap.empty.alloc storage
  let c := BinaryColumn.mk3 0 p.2 offset len
  let q := c.toValue p.1
  q.1.read q.2.id

/-- Bytes exposed to the host by the `.h` variant, read right after
construction. -/
def hExposedBytes (storage : Bytes) (len : Nat) : Bytes :=
  let p := Heap.empty.alloc storage
  let q := BinaryColumnH.make 0 p.1 p.2 len
  (q.1).read q.2.toValue.id

/-- Observational equivalence of the two variants at one input, as the
claim states it: same exposed bytes and same deallocation behaviour over
the full lifetime. -/
def obsEquivAt (storage : Bytes) (offset len : Nat) : Prop :=
  cppExposedBytes storage offset len = hExposedBytes storage len ∧
  (cppLifetime storage offset len).1.freeCount (cppLifetime storage offset len).2.id =
    (hLifetime storage len).1.freeCount (hLifetime storage len).2.id

/-! ### Heap lemmas -/

theorem Heap.read_alloc_self (h : Heap) (bs : Bytes) :
    (h.alloc bs).1.read (h.alloc bs).2 = bs := by
  simp [Heap.alloc, Heap.read, Heap.read.lookupBlock]

theorem Heap.read_alloc_other (h : Heap) (bs : Bytes) (id : Nat)
    (hne : id ≠ h.next) : (h.alloc bs).1.read id = h.read id := by
  simp [Heap.alloc, Heap.read, Heap.read.lookupBlock, Ne.symm hne]

theorem Heap.lookupBlock_map_write (l : List (Nat × Bytes)) (id tid : Nat)
    (bs : Bytes) (hne : tid ≠ id) :
    Heap.read.lookupBlock (l.map (fun p => if p.1 = id then (id, bs) else p)) tid =
      Heap.read.lookupBlock l tid := by
  induction l with
  | nil => rfl
  | cons p rest ih =>
    by_cases hp : p.1 = id
    · simp [Heap.read.lookupBlock, hp, Ne.symm hne, ih]
    · simp only [List.map_cons, if_neg hp]
      by_cases ht : p.1 = tid
      · simp [Heap.read.lookupBlock, ht]
      · simp [Heap.read.lookupBlock, ht, ih]

theorem Heap.read_write_other (h : Heap) (id tid : Nat) (bs : Bytes)
    (hne : tid ≠ id) : (h.write id bs).read tid = h.read tid := by
  simpa [Heap.write, Heap.read] using
    Heap.lookupBlock_map_write h.live id tid bs hne

theorem Heap.isLive_lt_next (h : Heap) (id : Nat) (hwf : h.wf)
    (hl : h.isLive id = true) : id < h.next := by
  simp only [Heap.isLive, List.any_eq_true, decide_eq_true_eq] at hl
  obtain ⟨p, hp, hid⟩ := hl
  simpa [hid] using hwf p hp

theorem Heap.isLive_alloc (h : Heap) (bs : Bytes) (id : Nat)
    (hl : h.isLive id = true) : (h.alloc bs).1.isLive id = true := by
  simp only [Heap.isLive] at hl
  simp [Heap.alloc, Heap.isLive, hl]

theorem Heap.read_write_alloc (h : Heap) (bs : Bytes) (sid : Nat) (nb : Bytes)
    (hne : h.next ≠ sid) :
    ((h.alloc bs).1.write sid nb).read (h.alloc bs).2 = bs :=
  calc ((h.alloc bs).1.write sid nb).read (h.alloc bs).2
      = ((h.alloc bs).1.write sid nb).read h.next := rfl
    _ = (h.alloc bs).1.read h.next := Heap.read_write_other _ sid h.next nb hne
    _ = bs := Heap.read_alloc_self h bs

instance (storage : Bytes) (offset len : Nat) :
    Decidable (obsEquivAt storage offset len) := by
  unfold obsEquivAt
  infer_instance

/-! ### Claims about BinaryColumn -/

/-- C1: the claim says every materialized buffer's allocation is freed
exactly once over its full lifetime.  The `.cpp` variant refutes this:
`delete_buffer` has its `delete[] ptr` commented out, so after the host
invokes the release callback the single invocation guaranteed by the host,
the allocation created by `ToValue` has been freed zero times and is still
live — a leak.  Evaluated here at a 3-byte storage, offset 0, length 3. -/
theorem delete_buffer_never_frees :
    (cppLifetime [1, 2, 3] 0 3).1.freeCount (cppLifetime [1, 2, 3] 0 3).2.id = 0 ∧
    (cppLifetime [1, 2, 3] 0 3).1.isLive (cppLifetime [1, 2, 3] 0 3).2.id = true := by
  decide

/-- C2 counterexample: the two `BinaryColumn` implementations are not
observationally equivalent.  On the spec's own example — a 10-byte backing
store, offset 3, length 5 — the `.cpp` variant exposes bytes 3..7 while the
`.h` variant exposes bytes 0..4, and over the full lifetime the `.cpp`
release frees the allocation 0 times while the `.h` release frees it once. -/
theorem cpp_h_not_obs_equiv :
    ¬ obsEquivAt [0, 1, 2, 3, 4, 5, 6, 7, 8, 9] 3 5 := by
  decide

/-- C2 amended: the two implementations agree on the exposed bytes exactly
when the copied ranges coincide (offset 0), and their deallocation
behaviours always differ — over a full lifetime the `.cpp` release frees
the materialized allocation zero times while the `.h` release frees it
exactly once. -/
theorem cpp_h_materialization_divergence (s : Bytes) (offset len : Nat) :
    cppExposedBytes s 0 len = hExposedBytes s len ∧
    (cppLifetime s offset len).1.freeCount (cppLifetime s offset len).2.id = 0 ∧
    (hLifetime s len).1.freeCount (hLifetime s len).2.id = 1 := by
  refine ⟨?_, ?_, ?_⟩
  · simp [cppExposedBytes, hExposedBytes, BinaryColumn.toValue, BinaryColumn.mk3,
      BinaryColumnH.make, BinaryColumnH.toValue, Heap.alloc, Heap.empty, Heap.read,
      Heap.read.lookupBlock]
  · simp [cppLifetime, BinaryColumn.toValue, BinaryColumn.mk3, Heap.alloc, Heap.empty,
      runRelease, Heap.freeCount]
  · simp [hLifetime, BinaryColumnH.make, BinaryColumnH.toValue, Heap.alloc, Heap.empty,
      runRelease, Heap.freeCount, Heap.deleteArr]

/-- C3: materialization copies bytes `[offset, offset+len)` of the backing
storage as they are at materialization time, and overwriting the backing
storage afterwards leaves the materialized buffer's bytes unchanged, for
the `.cpp` `ToValue` path (arbitrary offset) and the `.h` constructor-time
`clone` path (which always copies from offset 0). -/
theorem binary_column_copy_isolation (h : Heap) (cid : Int) (sid offset len : Nat)
    (hwf : h.wf) (hlive : h.isLive sid = true)
    (_hbound : offset + len ≤ (h.read sid).length) :
    (((BinaryColumn.mk3 cid sid offset len).toValue h).1.read
        ((BinaryColumn.mk3 cid sid offset len).toValue h).2.id =
      ((h.read sid).drop offset).take len) ∧
    (∀ nb : Bytes,
      ((((BinaryColumn.mk3 cid sid offset len).toValue h).1.write sid nb).read
          ((BinaryColumn.mk3 cid sid offset len).toValue h).2.id) =
        ((h.read sid).drop offset).take len) ∧
    ((BinaryColumnH.make cid h sid len).1.read
        (BinaryColumnH.make cid h sid len).2.toValue.id =
      (h.read sid).take len) ∧
    (∀ nb : Bytes,
      (((BinaryColumnH.make cid h sid len).1.write sid nb).read
          (BinaryColumnH.make cid h sid len).2.toValue.id) =
        (h.read sid).take len) := by
  have hslt : sid < h.next := Heap.isLive_lt_next h sid hwf hlive
  have hne : h.next ≠ sid := Nat.ne_of_gt hslt
  refine ⟨?_, ?_, ?_, ?_⟩
  · exact Heap.read_alloc_self h _
  · intro nb
    exact Heap.read_write_alloc h _ sid nb hne
  · exact Heap.read_alloc_self h _
  · intro nb
    exact Heap.read_write_alloc h _ sid nb hne

/-- Heap used by concrete buffer witnesses: one live 10-byte storage
block with id 0. -/
def tenByteHeap : Heap := ⟨1, [(0, [0, 1, 2, 3, 4, 5, 6, 7, 8, 9])], []⟩

/-- C3 witness: on the 10-byte storage at offset 3, length 5, the
materialized bytes are bytes 3..7 of the storage, and remain so after the
backing block is overwritten. -/
theorem binary_column_copy_isolation_w :
    (((BinaryColumn.mk3 7 0 3 5).toValue tenByteHeap).1.read
        ((BinaryColumn.mk3 7 0 3 5).toValue tenByteHeap).2.id =
      ((tenByteHeap.read 0).drop 3).take 5) ∧
    ((((BinaryColumn.mk3 7 0 3 5).toValue tenByteHeap).1.write 0
          [9, 9, 9, 9, 9, 9, 9, 9, 9, 9]).read
        ((BinaryColumn.mk3 7 0 3 5).toValue tenByteHeap).2.id =
      ((tenByteHeap.read 0).drop 3).take 5) := by
  have := binary_column_copy_isolation tenByteHeap 7 0 3 5
    (by decide) (by decide) (by decide)
  exact ⟨this.1, this.2.1 [9, 9, 9, 9, 9, 9, 9, 9, 9, 9]⟩

/-- C10: materialization is read-only with respect to its inputs — after
either materialization path, every live block of the heap (in particular
the backing column storage) reads exactly as before and stays live; the
column's `id`, `len` and `offset` fields are passed by value and returned
untouched in this embedding, mirroring that neither source path writes to
them. -/
theorem materialization_frame (h : Heap) (c : BinaryColumn) (hwf : h.wf) :
    ∀ id : Nat, h.isLive id = true →
      ((c.toValue h).1.read id = h.read id ∧
        (c.toValue h).1.isLive id = true) ∧
      ((BinaryColumnH.make c.colId h c.storage c.len).1.read id = h.read id ∧
        (BinaryColumnH.make c.colId h c.storage c.len).1.isLive id = true) := by
  intro id hlive
  have hne : id ≠ h.next := Nat.ne_of_lt (Heap.isLive_lt_next h id hwf hlive)
  refine ⟨⟨?_, ?_⟩, ⟨?_, ?_⟩⟩
  · simpa [BinaryColumn.toValue] using
      Heap.read_alloc_other h (((h.read c.storage).drop c.offset).take c.len) id hne
  · simpa [BinaryColumn.toValue] using
      Heap.isLive_alloc h (((h.read c.storage).drop c.offset).take c.len) id hlive
  · simpa [BinaryColumnH.make] using
      Heap.read_alloc_other h ((h.read c.storage).take c.len) id hne
  · simpa [BinaryColumnH.make] using
      Heap.isLive_alloc h ((h.read c.storage).take c.len) id hlive

/-- C10 witness: materializing from the 10-byte heap leaves block 0 reading
its original bytes and live, on both paths. -/
theorem materialization_frame_w :
    ((BinaryColumn.mk3 7 0 3 5).toValue tenByteHeap).1.read 0 =
        tenByteHeap.read 0 ∧
      ((BinaryColumn.mk3 7 0 3 5).toValue tenByteHeap).1.isLive 0 = true := by
  have := materialization_frame tenByteHeap (BinaryColumn.mk3 7 0 3 5)
    (by decide) 0 (by decide)
  exact this.1

/-! ### Error kinds -/

/-- The error kinds of the bulk-copy subsystem (spec §7). -/
inductive OdbcError where
  | LibraryLoadError (detail : String)
  | ProtocolInitError
  | ColumnBindError (columnIndex : Nat)
  | RowSendError (rowIndex : Nat)
  | FinalizeError
  | CursorExhausted
  | StateOrderingViolation
deriving Repr, DecidableEq

/-! ### plugin_bcp: the native function table -/

/-- A native client library as seen by the loader: whether opening it
succeeds, and its symbol table. -/
structure NativeLibrary where
  canOpen : Bool
  syms : List (String × Nat)
deriving Repr, DecidableEq

/-- Symbol resolution in an opened library. -/
def NativeLibrary.findSym (lib : NativeLibrary) (name : String) : Option Nat :=
  go lib.syms name
where
  /-- First association for `name` in the symbol table. -/
  go : List (String × Nat) → String → Option Nat
    | [], _ => none
    | p :: rest, n => if p.1 = n then some p.2 else go rest n

/-- The fields of `plugin_bcp` from `bcp.h`: the library handle and the
four function pointers; `none` models a null / unbound pointer. -/
structure plugin_bcp where
  hinstLib : Option Nat
  dll_bcp_bind : Option Nat
  dll_bcp_init : Option Nat
  dll_bcp_sendrow : Option Nat
  dll_bcp_done : Option Nat
deriving Repr, DecidableEq

/-- A table with no handle and nothing bound. -/
def plugin_bcp.unloaded : plugin_bcp := ⟨none, none, none, none, none⟩

/-- Whether all four entry points are bound. -/
def plugin_bcp.fullyBound (p : plugin_bcp) : Bool :=
  p.dll_bcp_bind.isSome && p.dll_bcp_init.isSome &&
    p.dll_bcp_sendrow.isSome && p.dll_bcp_done.isSome

/-- Result of `plugin_bcp::load`: the table, the error sink after the
call, the returned flag, and the symbol lookups that were attempted. -/
structure LoadResult where
  plugin : plugin_bcp
  errors : List OdbcError
  ok : Bool
  attempted : List String
deriving Repr, DecidableEq

/-- A load failure after a successful open: the handle is released and no
partially bound table is exposed. -/
def loadFail (errors : List OdbcError) (attempted : List String)
    (missing : String) : LoadResult :=
  ⟨plugin_bcp.unloaded, errors ++ [.LibraryLoadError missing], false, attempted⟩

/-- Modelled from the spec: the body of `plugin_bcp::load` is not in the
excerpted source (`bcp.h` only declares it).  Per §4.1: if the library
fails to open, append a `LibraryLoadError` and return false without
attempting any symbol; otherwise resolve the four entry points, and if any
one is missing, release the handle, append an error naming the missing
symbol, and expose no partially bound table. -/
def plugin_bcp.load (lib : NativeLibrary) (errors : List OdbcError) : LoadResult :=
  if lib.canOpen = false then
    ⟨plugin_bcp.unloaded, errors ++ [.LibraryLoadError "library open failed"],
      false, []⟩
  else
    match lib.findSym "bcp_bind" with
    | none => loadFail errors ["bcp_bind"] "bcp_bind"
    | some pBind =>
      match lib.findSym "bcp_init" with
      | none => loadFail errors ["bcp_bind", "bcp_init"] "bcp_init"
      | some pInit =>
        match lib.findSym "bcp_sendrow" with
        | none =>
          loadFail errors ["bcp_bind", "bcp_init", "bcp_sendrow"] "bcp_sendrow"
        | some pSend =>
          match lib.findSym "bcp_done" with
          | none =>
            loadFail errors ["bcp_bind", "bcp_init", "bcp_sendrow", "bcp_done"]
              "bcp_done"
          | some pDone =>
            ⟨⟨some 1, some pBind, some pInit, some pSend, some pDone⟩,
              errors, true, ["bcp_bind", "bcp_init", "bcp_sendrow", "bcp_done"]⟩

/-- The first of the four entry points that does not resolve, if any. -/
def firstMissingSym (lib : NativeLibrary) : Option String :=
  if (lib.findSym "bcp_bind").isNone then some "bcp_bind"
  else if (lib.findSym "bcp_init").isNone then some "bcp_init"
  else if (lib.findSym "bcp_sendrow").isNone then some "bcp_sendrow"
  else if (lib.findSym "bcp_done").isNone then some "bcp_done"
  else none

/-- C5: function-table loading is all-or-nothing.  `load` returns true
exactly when the library opens and all four entry points resolve; on open
failure a `LibraryLoadError` is appended and no symbol lookup is
attempted; on a missing symbol the handle is released, an error naming the
missing symbol is appended, and the exposed table is either fully bound or
completely unloaded — never partial. -/
theorem plugin_load_all_or_nothing (lib : NativeLibrary) (errors : List OdbcError) :
    ((plugin_bcp.load lib errors).ok = true ↔
      lib.canOpen = true ∧ (lib.findSym "bcp_bind").isSome = true ∧
      (lib.findSym "bcp_init").isSome = true ∧
      (lib.findSym "bcp_sendrow").isSome = true ∧
      (lib.findSym "bcp_done").isSome = true) ∧
    (lib.canOpen = false →
      (plugin_bcp.load lib errors).errors =
        errors ++ [.LibraryLoadError "library open failed"] ∧
      (plugin_bcp.load lib errors).attempted = []) ∧
    ((plugin_bcp.load lib errors).ok = false →
      (plugin_bcp.load lib errors).plugin = plugin_bcp.unloaded ∧
      (plugin_bcp.load lib errors).plugin.hinstLib = none ∧
      ∃ e, (plugin_bcp.load lib errors).errors =
        errors ++ [OdbcError.LibraryLoadError e]) ∧
    ((plugin_bcp.load lib errors).ok = true →
      (plugin_bcp.load lib errors).plugin.fullyBound = true ∧
      (plugin_bcp.load lib errors).errors = errors) ∧
    (∀ name, lib.canOpen = true → firstMissingSym lib = some name →
      (plugin_bcp.load lib errors).errors =
        errors ++ [OdbcError.LibraryLoadError name] ∧
      (plugin_bcp.load lib errors).plugin = plugin_bcp.unloaded ∧
      (plugin_bcp.load lib errors).ok = false) ∧
    ((plugin_bcp.load lib errors).plugin = plugin_bcp.unloaded ∨
      (plugin_bcp.load lib errors).plugin.fullyBound = true) := by
  cases hopen : lib.canOpen with
  | false =>
    refine ⟨?_, ?_, ?_, ?_, ?_, ?_⟩ <;>
      simp [plugin_bcp.load, hopen, plugin_bcp.unloaded, plugin_bcp.fullyBound,
        loadFail]
  | true =>
    cases hb : lib.findSym "bcp_bind" <;>
      cases hi : lib.findSym "bcp_init" <;>
        cases hs : lib.findSym "bcp_sendrow" <;>
          cases hd : lib.findSym "bcp_done" <;>
            (refine ⟨?_, ?_, ?_, ?_, ?_, ?_⟩ <;>
              simp [plugin_bcp.load, hopen, hb, hi, hs, hd, firstMissingSym,
                plugin_bcp.unloaded, plugin_bcp.fullyBound, loadFail])

/-- A library that opens but lacks `bcp_init`. -/
def libNoInit : NativeLibrary :=
  ⟨true, [("bcp_bind", 10), ("bcp_sendrow", 12), ("bcp_done", 13)]⟩

/-- C5 witness: loading a library missing `bcp_init` appends an error
naming it, exposes the unloaded table and returns false. -/
theorem plugin_load_all_or_nothing_w :
    (plugin_bcp.load libNoInit []).errors =
        [OdbcError.LibraryLoadError "bcp_init"] ∧
      (plugin_bcp.load libNoInit []).plugin = plugin_bcp.unloaded ∧
      (plugin_bcp.load libNoInit []).ok = false := by
  have h := (plugin_load_all_or_nothing libNoInit []).2.2.2.2.1 "bcp_init"
    rfl (by decide)
  simpa using h

/-! ### basestorage: per-column cursors -/

/-- The `basestorage` cursor of `bcp.h` over one column: the source keeps
the current `index`; the per-row payloads of the concrete subclasses (not
in the excerpted source) are modelled as a list of byte strings, so
`rows.length` is the column's row count. -/
structure basestorage where
  rows : List Bytes
  index : Nat
deriving Repr, DecidableEq

/-- The `size()` accessor: the column's row count. -/
def basestorage.size (c : basestorage) : Nat := c.rows.length

/-- The `ptr()` accessor: the pointer+length payload for the row at the current
index. -/
def basestorage.ptr (c : basestorage) : Option Bytes := c.rows[c.index]?

/-- Modelled from the spec: `next()` is pure virtual in `bcp.h`; per §4.2
it advances the index by one and fails with `CursorExhausted` when called
at `index == size()`. -/
def basestorage.next (c : basestorage) : Except OdbcError basestorage :=
  if c.index = c.size then .error .CursorExhausted
  else .ok ⟨c.rows, c.index + 1⟩

/-- C9: the cursor contract — `size` is the row count, `ptr` reads the row
at the current index, `next` advances the index by exactly one while below
`size` and fails with `CursorExhausted` exactly when called at
`index == size`. -/
theorem basestorage_cursor_contract (c : basestorage) (_hle : c.index ≤ c.size) :
    c.size = c.rows.length ∧
    c.ptr = c.rows[c.index]? ∧
    (c.index < c.size → c.next = .ok ⟨c.rows, c.index + 1⟩) ∧
    (c.next = .error .CursorExhausted ↔ c.index = c.size) := by
  refine ⟨rfl, rfl, ?_, ?_, ?_⟩
  · intro hlt
    simp [basestorage.next, Nat.ne_of_lt hlt]
  · intro hn
    by_contra hne
    simp [basestorage.next, hne] at hn
  · intro he
    simp [basestorage.next, he]

/-- C9 witness: a two-row cursor at index 1 advances to index 2; the same
cursor at index 2 is exhausted. -/
theorem basestorage_cursor_contract_w :
    (basestorage.mk [[1], [2]] 1).next = .ok ⟨[[1], [2]], 2⟩ ∧
    ((basestorage.mk [[1], [2]] 2).next = .error .CursorExhausted ↔
      (2 : Nat) = (basestorage.mk [[1], [2]] 2).size) := by
  constructor
  · exact (basestorage_cursor_contract ⟨[[1], [2]], 1⟩ (by decide)).2.2.1 (by decide)
  · exact (basestorage_cursor_contract ⟨[[1], [2]], 2⟩ (by decide)).2.2.2

/-! ### The bcp session state machine

The `bcp` struct in `bcp.h` only declares `init`, `bind`, `insert`,
`send`, `done`; their bodies are not part of the excerpted source, so the
state machine, its guards and the send loop are modelled from the spec
(§4.3, §5, §8). -/

/-- One native call reaching the function table. -/
inductive NativeCall where
  | initCall
  | bindCall (col : Nat)
  | sendRowCall (row : Nat)
  | doneCall
deriving Repr, DecidableEq

/-- Session states (spec §3). -/
inductive SessionState where
  | Created
  | Initialized
  | Bound
  | Sending
  | FinishedOk
  | FinishedFailed
deriving Repr, DecidableEq

/-- A scripted function table: which native calls succeed, per column /
row index, and the row count the native `done` reports (negative is the
failure sentinel). -/
structure ScriptedTable where
  initOk : Bool
  bindOk : Nat → Bool
  sendRowOk : Nat → Bool
  doneRows : Int

/-- The bulk-copy session: the `_storage` cursor list and `_errors` sink
of the source `bcp` struct, plus the spec's state-machine state, the
accepted row count, and the trace of native calls issued so far. -/
structure bcp where
  state : SessionState
  _storage : List basestorage
  _errors : List OdbcError
  accepted : Int
  trace : List NativeCall
deriving Repr, DecidableEq

/-- The session's row count: the (validated-equal) row count of its
cursors. -/
def bcp.rowCount (s : bcp) : Nat :=
  match s._storage with
  | [] => 0
  | c :: _ => c.size

/-- Whether every column reports the same row count as the first. -/
def rowCountsEqual (cols : List (List Bytes)) : Bool :=
  match cols with
  | [] => true
  | c :: rest => rest.all (fun r => r.length = c.length)

/-- Modelled from the spec: session construction builds one cursor per
column and rejects mismatched row counts before any native call (§3,
§8).  Returns the session (or `none` on rejection) together with the
native calls construction issued — always `[]`. -/
def mkSession (cols : List (List Bytes)) : Option bcp × List NativeCall :=
  if rowCountsEqual cols then
    (some ⟨.Created, cols.map (fun r => ⟨r, 0⟩), [], 0, []⟩, [])
  else
    (none, [])

/-- Modelled from the spec: `bcp::init` calls the native init entry from
`Created`; on failure appends `ProtocolInitError` and finishes; invoked in
any other state it is rejected locally with `StateOrderingViolation` and
no native call. -/
def bcp.init (s : bcp) (t : ScriptedTable) : bcp :=
  match s.state with
  | .Created =>
    if t.initOk then
      { s with state := .Initialized, trace := s.trace ++ [.initCall] }
    else
      { s with state := .FinishedFailed,
               _errors := s._errors ++ [.ProtocolInitError],
               trace := s.trace ++ [.initCall] }
  | _ => { s with _errors := s._errors ++ [.StateOrderingViolation] }

/-- The per-column bind loop over 1-based column positions: aborts on the
first failing column. -/
def bindLoop (t : ScriptedTable) : bcp → List Nat → bcp
  | s, [] => { s with state := .Bound }
  | s, i :: rest =>
    if t.bindOk i then
      bindLoop t { s with trace := s.trace ++ [.bindCall i] } rest
    else
      { s with state := .FinishedFailed,
               _errors := s._errors ++ [.ColumnBindError i],
               trace := s.trace ++ [.bindCall i] }

/-- Modelled from the spec: `bcp::bind` binds each column in order from
`Initialized`; any single failure appends `ColumnBindError` and aborts the
remaining columns; invoked in any other state it is rejected locally with
`StateOrderingViolation` and no native call. -/
def bcp.bind (s : bcp) (t : ScriptedTable) : bcp :=
  match s.state with
  | .Initialized => bindLoop t s (List.range' 1 s._storage.length)
  | _ => { s with _errors := s._errors ++ [.StateOrderingViolation] }

/-- Advance every cursor by one (the on-success step of the send loop). -/
def advanceAll (cs : List basestorage) : List basestorage :=
  cs.map (fun c => ⟨c.rows, c.index + 1⟩)

/-- The row send loop: one native send per row index; on success advance
every cursor, on failure append `RowSendError` and stop immediately. -/
def sendLoop (t : ScriptedTable) : bcp → List Nat → bcp
  | s, [] => s
  | s, i :: rest =>
    if t.sendRowOk i then
      sendLoop t
        { s with _storage := advanceAll s._storage,
                 trace := s.trace ++ [.sendRowCall i] }
        rest
    else
      { s with _errors := s._errors ++ [.RowSendError i],
               trace := s.trace ++ [.sendRowCall i] }

/-- Modelled from the spec: `bcp::insert` runs the send loop over rows
`0..rowCount-1` from `Bound`, entering `Sending`; invoked in any other
state it is rejected locally with `StateOrderingViolation` and no native
call. -/
def bcp.insert (s : bcp) (t : ScriptedTable) : bcp :=
  match s.state with
  | .Bound => sendLoop t { s with state := .Sending } (List.range s.rowCount)
  | _ => { s with _errors := s._errors ++ [.StateOrderingViolation] }

/-- Modelled from the spec: `bcp::done` is callable exactly once, after
`Sending`, whether or not the loop aborted; a failure sentinel becomes
`FinalizeError`; invoked in any other state (including a second time,
when the session is already finished) it is rejected locally with
`StateOrderingViolation` and no native call. -/
def bcp.done (s : bcp) (t : ScriptedTable) : bcp :=
  match s.state with
  | .Sending =>
    if t.doneRows ≥ 0 then
      { s with accepted := t.doneRows,
               state := if s._errors.isEmpty then .FinishedOk else .FinishedFailed,
               trace := s.trace ++ [.doneCall] }
    else
      { s with state := .FinishedFailed,
               _errors := s._errors ++ [.FinalizeError],
               trace := s.trace ++ [.doneCall] }
  | _ => { s with _errors := s._errors ++ [.StateOrderingViolation] }

/-- Modelled from the spec: the full session flow — construct, `init`,
`bind`, `insert` (the send loop), then `done` exactly once whenever the
session reached `Sending`; an earlier failure stops the flow. -/
def runBulkCopy (cols : List (List Bytes)) (t : ScriptedTable) : Option bcp :=
  match (mkSession cols).1 with
  | none => none
  | some s0 =>
    let s1 := s0.init t
    if s1.state = .Initialized then
      let s2 := s1.bind t
      if s2.state = .Bound then
        some ((s2.insert t).done t)
      else
        some s2
    else
      some s1

/-- The row indices for which a native send-row call appears in a trace,
in order. -/
def sentRows (tr : List NativeCall) : List Nat :=
  tr.filterMap (fun c =>
    match c with
    | .sendRowCall i => some i
    | _ => none)

/-- Row count of a column set: the first column's length. -/
def colsRowCount (cols : List (List Bytes)) : Nat :=
  match cols with
  | [] => 0
  | c :: _ => c.length

/-- C6: every cursor built for a session reports the same row count, and a
session built from columns with differing row counts is rejected at
construction, before any native call is issued. -/
theorem session_cursors_consistent (cols : List (List Bytes)) :
    (rowCountsEqual cols = true →
      ∃ s, (mkSession cols).1 = some s ∧ s.trace = [] ∧
        ∀ c ∈ s._storage, c.size = colsRowCount cols) ∧
    (rowCountsEqual cols = false →
      (mkSession cols).1 = none ∧ (mkSession cols).2 = []) := by
  constructor
  · intro h
    refine ⟨⟨.Created, cols.map (fun r => ⟨r, 0⟩), [], 0, []⟩,
      by simp [mkSession, h], rfl, ?_⟩
    intro c hc
    simp only [List.mem_map] at hc
    obtain ⟨r, hr, rfl⟩ := hc
    cases cols with
    | nil => exact absurd hr (List.not_mem_nil r)
    | cons c0 rest =>
      have hall : ∀ x ∈ rest, x.length = c0.length := by
        simpa [rowCountsEqual, List.all_eq_true] using h
      rcases List.mem_cons.mp hr with rfl | hmem
      · simp [basestorage.size, colsRowCount]
      · simp [basestorage.size, colsRowCount, hall r hmem]
  · intro h
    simp [mkSession, h]

/-- C6 witness: a 1-row column next to a 0-row column is rejected with no
native call. -/
theorem session_cursors_consistent_w :
    (mkSession [[[1]], []]).1 = none ∧ (mkSession [[[1]], []]).2 = [] :=
  (session_cursors_consistent [[[1]], []]).2 (by decide)

/-- C7: a protocol operation invoked out of state-machine order is
rejected locally with `StateOrderingViolation`: the session is unchanged
except for that appended error — in particular the native-call trace is
unchanged, so zero native calls occur. -/
theorem out_of_order_calls_rejected (s : bcp) (t : ScriptedTable) :
    (s.state ≠ .Created →
      s.init t = { s with _errors := s._errors ++ [.StateOrderingViolation] }) ∧
    (s.state ≠ .Initialized →
      s.bind t = { s with _errors := s._errors ++ [.StateOrderingViolation] }) ∧
    (s.state ≠ .Bound →
      s.insert t = { s with _errors := s._errors ++ [.StateOrderingViolation] }) ∧
    (s.state ≠ .Sending →
      s.done t = { s with _errors := s._errors ++ [.StateOrderingViolation] }) := by
  refine ⟨?_, ?_, ?_, ?_⟩
  · intro hne
    cases hst : s.state <;> simp_all [bcp.init]
  · intro hne
    cases hst : s.state <;> simp_all [bcp.bind]
  · intro hne
    cases hst : s.state <;> simp_all [bcp.insert]
  · intro hne
    cases hst : s.state <;> simp_all [bcp.done]

/-- A function table whose native calls all succeed and whose `done`
reports 3 rows. -/
def allOkTable : ScriptedTable :=
  ⟨true, fun _ => true, fun _ => true, 3⟩

/-- A freshly constructed (still `Created`) two-column, one-row session. -/
def createdSession : bcp :=
  ⟨.Created, [⟨[[1]], 0⟩, ⟨[[2]], 0⟩], [], 0, []⟩

/-- C7 witness: calling `bind` on a session still in `Created` (before
`init` succeeded) only appends `StateOrderingViolation`; the trace stays
empty. -/
theorem out_of_order_calls_rejected_w :
    createdSession.bind allOkTable =
      { createdSession with
          _errors := createdSession._errors ++ [.StateOrderingViolation] } :=
  (out_of_order_calls_rejected createdSession allOkTable).2.1 (by decide)

/-! ### Loop lemmas for the session flow -/

theorem bindLoop_allOk (t : ScriptedTable) (l : List Nat) :
    ∀ s : bcp, (∀ i ∈ l, t.bindOk i = true) →
      (bindLoop t s l).state = SessionState.Bound ∧
      (bindLoop t s l).trace = s.trace ++ l.map NativeCall.bindCall ∧
      (bindLoop t s l)._errors = s._errors ∧
      (bindLoop t s l)._storage = s._storage ∧
      (bindLoop t s l).accepted = s.accepted := by
  induction l with
  | nil =>
    intro s _
    simp [bindLoop]
  | cons i rest ih =>
    intro s hall
    have hok : t.bindOk i = true := hall i (List.mem_cons_self i rest)
    obtain ⟨h1, h2, h3, h4, h5⟩ :=
      ih { s with trace := s.trace ++ [NativeCall.bindCall i] }
        (fun j hj => hall j (List.mem_cons_of_mem i hj))
    refine ⟨?_, ?_, ?_, ?_, ?_⟩ <;> simp [bindLoop, hok, h1, h2, h3, h4, h5]

theorem sendLoop_allOk (t : ScriptedTable) (l : List Nat) :
    ∀ s : bcp, (∀ i ∈ l, t.sendRowOk i = true) →
      (sendLoop t s l).state = s.state ∧
      (sendLoop t s l).trace = s.trace ++ l.map NativeCall.sendRowCall ∧
      (sendLoop t s l)._errors = s._errors ∧
      (sendLoop t s l).accepted = s.accepted := by
  induction l with
  | nil =>
    intro s _
    simp [sendLoop]
  | cons i rest ih =>
    intro s hall
    have hok : t.sendRowOk i = true := hall i (List.mem_cons_self i rest)
    obtain ⟨h1, h2, h3, h4⟩ :=
      ih { s with _storage := advanceAll s._storage,
                  trace := s.trace ++ [NativeCall.sendRowCall i] }
        (fun j hj => hall j (List.mem_cons_of_mem i hj))
    refine ⟨?_, ?_, ?_, ?_⟩ <;> simp [sendLoop, hok, h1, h2, h3, h4]

theorem sendLoop_firstFail (t : ScriptedTable) (k : Nat)
    (hsl : ∀ i, i < k → t.sendRowOk i = true) (hsk : t.sendRowOk k = false) :
    ∀ (b a : Nat) (s : bcp), a ≤ k → k < a + b →
      (sendLoop t s (List.range' a b)).trace =
        s.trace ++ (List.range' a (k - a + 1)).map NativeCall.sendRowCall ∧
      (sendLoop t s (List.range' a b))._errors =
        s._errors ++ [OdbcError.RowSendError k] ∧
      (sendLoop t s (List.range' a b)).state = s.state ∧
      (sendLoop t s (List.range' a b)).accepted = s.accepted := by
  intro b
  induction b with
  | zero =>
    intro a s ha hb
    omega
  | succ b ih =>
    intro a s ha hb
    rw [List.range'_succ a b 1]
    by_cases hak : a = k
    · subst hak
      refine ⟨?_, ?_, ?_, ?_⟩ <;>
        simp [sendLoop, hsk, Nat.sub_self, List.range'_one]
    · have halt : a < k := lt_of_le_of_ne ha hak
      have hok : t.sendRowOk a = true := hsl a halt
      obtain ⟨h1, h2, h3, h4⟩ :=
        ih (a + 1)
          { s with _storage := advanceAll s._storage,
                   trace := s.trace ++ [NativeCall.sendRowCall a] }
          (by omega) (by omega)
      have hkk : k - a + 1 = (k - (a + 1) + 1) + 1 := by omega
      refine ⟨?_, ?_, ?_, ?_⟩
      · rw [hkk, List.range'_succ a (k - (a + 1) + 1) 1]
        simp [sendLoop, hok, h1]
      · simp [sendLoop, hok, h2]
      · simp [sendLoop, hok, h3]
      · simp [sendLoop, hok, h4]

theorem rowCount_of_storage (cols : List (List Bytes)) (s : bcp)
    (hs : s._storage = cols.map (fun r => ⟨r, 0⟩)) :
    s.rowCount = colsRowCount cols := by
  cases cols with
  | nil => simp [bcp.rowCount, colsRowCount, hs]
  | cons c rest => simp [bcp.rowCount, colsRowCount, hs, basestorage.size]

theorem done_after_sending (s : bcp) (t : ScriptedTable)
    (hst : s.state = .Sending) :
    (s.done t).trace = s.trace ++ [NativeCall.doneCall] ∧
    ∀ e ∈ s._errors, e ∈ (s.done t)._errors := by
  by_cases hd : t.doneRows ≥ 0
  · constructor <;> simp [bcp.done, hst, hd]
  · constructor
    · simp [bcp.done, hst, hd]
    · intro e he
      simp [bcp.done, hst, hd]
      exact Or.inl he

/-! ### Trace bookkeeping -/

theorem sentRows_append (a b : List NativeCall) :
    sentRows (a ++ b) = sentRows a ++ sentRows b := by
  simp [sentRows]

theorem sentRows_map_bindCall (l : List Nat) :
    sentRows (l.map NativeCall.bindCall) = [] := by
  induction l with
  | nil => rfl
  | cons x xs _ => simp [sentRows]

theorem sentRows_map_sendRowCall (l : List Nat) :
    sentRows (l.map NativeCall.sendRowCall) = l := by
  induction l with
  | nil => rfl
  | cons x xs ih => simpa [sentRows] using ih

theorem count_doneCall_map_bindCall (l : List Nat) :
    (l.map NativeCall.bindCall).count NativeCall.doneCall = 0 := by
  induction l with
  | nil => rfl
  | cons x xs ih => simpa [List.count_cons] using ih

theorem count_doneCall_map_sendRowCall (l : List Nat) :
    (l.map NativeCall.sendRowCall).count NativeCall.doneCall = 0 := by
  induction l with
  | nil => rfl
  | cons x xs ih => simpa [List.count_cons] using ih

/-- C4: when the native send-row first fails at row `k < n`, the session
sends exactly rows `0..k` (in order, nothing above `k`), appends
`RowSendError k`, and still issues `done` exactly once, after the sends. -/
theorem bcp_send_stops_at_first_failure
    (cols : List (List Bytes)) (t : ScriptedTable) (k : Nat)
    (hcols : rowCountsEqual cols = true)
    (hk : k < colsRowCount cols)
    (hi : t.initOk = true)
    (hb : ∀ i, t.bindOk i = true)
    (hsl : ∀ i, i < k → t.sendRowOk i = true)
    (hsk : t.sendRowOk k = false) :
    ∃ s, runBulkCopy cols t = some s ∧
      sentRows s.trace = List.range (k + 1) ∧
      OdbcError.RowSendError k ∈ s._errors ∧
      s.trace.count NativeCall.doneCall = 1 ∧
      s.trace.getLast? = some NativeCall.doneCall := by
  set C := cols.map (fun r => (⟨r, 0⟩ : basestorage)) with hC
  have hmk : (mkSession cols).1 = some ⟨.Created, C, [], 0, []⟩ := by
    simp [mkSession, hcols, hC]
  have hs1 : (bcp.mk .Created C [] 0 []).init t =
      ⟨.Initialized, C, [], 0, [NativeCall.initCall]⟩ := by
    simp [bcp.init, hi]
  obtain ⟨hb1, hb2, hb3, hb4, hb5⟩ :=
    bindLoop_allOk t (List.range' 1 C.length)
      ⟨.Initialized, C, [], 0, [NativeCall.initCall]⟩ (fun i _ => hb i)
  set s2 := bindLoop t ⟨.Initialized, C, [], 0, [NativeCall.initCall]⟩
    (List.range' 1 C.length) with hs2def
  have hbind : (bcp.mk .Initialized C [] 0 [NativeCall.initCall]).bind t = s2 := by
    simp [bcp.bind, hs2def]
  have hrc : s2.rowCount = colsRowCount cols :=
    rowCount_of_storage cols s2 (by rw [hb4, hC])
  have hins : s2.insert t =
      sendLoop t { s2 with state := .Sending } (List.range s2.rowCount) := by
    simp [bcp.insert, hb1]
  have hrange : List.range s2.rowCount = List.range' 0 (colsRowCount cols) := by
    rw [hrc, List.range_eq_range']
  obtain ⟨ht1, ht2, ht3, ht4⟩ :=
    sendLoop_firstFail t k hsl hsk (colsRowCount cols) 0
      { s2 with state := .Sending } (Nat.zero_le k) (by omega)
  set s3 := sendLoop t { s2 with state := .Sending }
    (List.range' 0 (colsRowCount cols)) with hs3def
  have hst3 : s3.state = .Sending := by
    rw [hs3def]
    simpa using ht3
  obtain ⟨hd1, hd2⟩ := done_after_sending s3 t hst3
  have hrun : runBulkCopy cols t = some (s3.done t) := by
    simp only [runBulkCopy, hmk]
    rw [hs1]
    simp only [show (bcp.mk .Initialized C [] 0 [NativeCall.initCall]).state =
      SessionState.Initialized from rfl, if_pos rfl]
    rw [hbind]
    simp only [hb1, if_pos rfl]
    rw [hins, hrange, ← hs3def]
    simp
  have htrace : (s3.done t).trace =
      ([NativeCall.initCall] ++ (List.range' 1 C.length).map NativeCall.bindCall ++
        (List.range' 0 (k + 1)).map NativeCall.sendRowCall) ++
        [NativeCall.doneCall] := by
    rw [hd1, hs3def, ht1]
    simp [hb2]
  have herr : OdbcError.RowSendError k ∈ s3._errors := by
    rw [hs3def, ht2]
    exact List.mem_append_right _ (List.mem_singleton_self _)
  refine ⟨s3.done t, hrun, ?_, hd2 _ herr, ?_, ?_⟩
  · rw [htrace, sentRows_append, sentRows_append, sentRows_append,
      sentRows_map_bindCall, sentRows_map_sendRowCall]
    simp [sentRows, List.range_eq_range']
  · rw [htrace]
    simp [List.count_append, count_doneCall_map_bindCall,
      count_doneCall_map_sendRowCall, List.count_cons, List.count_nil]
  · rw [htrace]
    exact List.getLast?_concat _

/-- A 3-row, 2-column parameter set. -/
def cols3 : List (List Bytes) := [[[1], [2], [3]], [[4], [5], [6]]]

/-- A function table whose send-row succeeds only for row 0, so the first
failure is at row 1; `done` reports 0 accepted rows. -/
def failAt1Table : ScriptedTable :=
  ⟨true, fun _ => true, fun i => decide (i = 0), 0⟩

/-- C4 witness: over 3 rows with the first send failure at row 1, the
session sends rows 0 and 1 only, records `RowSendError 1`, and issues
`done` once, last. -/
theorem bcp_send_stops_at_first_failure_w :
    ∃ s, runBulkCopy cols3 failAt1Table = some s ∧
      sentRows s.trace = List.range 2 ∧
      OdbcError.RowSendError 1 ∈ s._errors ∧
      s.trace.count NativeCall.doneCall = 1 ∧
      s.trace.getLast? = some NativeCall.doneCall :=
  bcp_send_stops_at_first_failure cols3 failAt1Table 1 (by decide) (by decide)
    rfl (fun _ => rfl)
    (fun i hi => by simp [failAt1Table, Nat.lt_one_iff.mp hi])
    (by decide)

/-- C8: a session over columns of equal row count driven by a function
table whose native calls all succeed, and whose `done` reports the full
row count, ends with `acceptedRowCount = n` and an empty error list. -/
theorem bcp_happy_path (cols : List (List Bytes)) (t : ScriptedTable)
    (hcols : rowCountsEqual cols = true)
    (hi : t.initOk = true)
    (hb : ∀ i, t.bindOk i = true)
    (hs : ∀ i, t.sendRowOk i = true)
    (hd : t.doneRows = (colsRowCount cols : Int)) :
    ∃ s, runBulkCopy cols t = some s ∧
      s.accepted = (colsRowCount cols : Int) ∧
      s._errors = [] ∧ s.state = .FinishedOk := by
  set C := cols.map (fun r => (⟨r, 0⟩ : basestorage)) with hC
  have hmk : (mkSession cols).1 = some ⟨.Created, C, [], 0, []⟩ := by
    simp [mkSession, hcols, hC]
  have hs1 : (bcp.mk .Created C [] 0 []).init t =
      ⟨.Initialized, C, [], 0, [NativeCall.initCall]⟩ := by
    simp [bcp.init, hi]
  obtain ⟨hb1, hb2, hb3, hb4, hb5⟩ :=
    bindLoop_allOk t (List.range' 1 C.length)
      ⟨.Initialized, C, [], 0, [NativeCall.initCall]⟩ (fun i _ => hb i)
  set s2 := bindLoop t ⟨.Initialized, C, [], 0, [NativeCall.initCall]⟩
    (List.range' 1 C.length) with hs2def
  have hbind : (bcp.mk .Initialized C [] 0 [NativeCall.initCall]).bind t = s2 := by
    simp [bcp.bind, hs2def]
  have hrc : s2.rowCount = colsRowCount cols :=
    rowCount_of_storage cols s2 (by rw [hb4, hC])
  have hins : s2.insert t =
      sendLoop t { s2 with state := .Sending } (List.range s2.rowCount) := by
    simp [bcp.insert, hb1]
  obtain ⟨ht1, ht2, ht3, ht4⟩ :=
    sendLoop_allOk t (List.range s2.rowCount) { s2 with state := .Sending }
      (fun i _ => hs i)
  set s3 := sendLoop t { s2 with state := .Sending } (List.range s2.rowCount)
    with hs3def
  have hst3 : s3.state = .Sending := by
    rw [hs3def]
    simpa using ht1
  have herr3 : s3._errors = [] := by
    rw [ht3]
    simpa using hb3
  have hdone : s3.done t =
      { s3 with accepted := t.doneRows, state := .FinishedOk,
                trace := s3.trace ++ [NativeCall.doneCall] } := by
    have hge : t.doneRows ≥ 0 := by
      rw [hd]
      exact Int.natCast_nonneg _
    simp [bcp.done, hst3, hge, herr3]
  have hrun : runBulkCopy cols t = some (s3.done t) := by
    simp only [runBulkCopy, hmk]
    rw [hs1]
    simp only [show (bcp.mk .Initialized C [] 0 [NativeCall.initCall]).state =
      SessionState.Initialized from rfl, if_pos rfl]
    rw [hbind]
    simp only [hb1, if_pos rfl]
    rw [hins]
    simp
  refine ⟨s3.done t, hrun, ?_, ?_, ?_⟩
  · rw [hdone, hd]
  · rw [hdone]
    exact herr3
  · rw [hdone]

/-- C8 witness: the 3-row, 2-column parameter set with the all-success
table returns `acceptedRowCount = 3` and no errors. -/
theorem bcp_happy_path_w :
    ∃ s, runBulkCopy cols3 allOkTable = some s ∧
      s.accepted = 3 ∧ s._errors = [] ∧ s.state = .FinishedOk := by
  have h := bcp_happy_path cols3 allOkTable (by decide) rfl
    (fun _ => rfl) (fun _ => rfl) (by decide)
  simpa using h
